import Mathlib

/-!
Shallow embedding of `src/playwright_version/scrape_non_profits_concurrent.py`.

Letters are modelled as their character codes (`ord`), so the letter a is 97
and the letter z is 122, matching the source's use of `chr` / `ord`.
The in-loop mutable list `search_word` becomes a `List Nat`; the inline
transition at lines 269-275 becomes the function `advance`.
-/

namespace Zones

/-- Character code of the letter a, as produced by `ord` in the source. -/
def aCode : Nat := 97

/-- Character code of the letter z, as produced by `ord` in the source. -/
def zCode : Nat := 122

/-- Lines 272-273: `while len(search_word) > 0 and search_word[-1] == 'z': search_word.pop()`.
Popping trailing z letters is dropping the leading z letters of the reversed list. -/
def popTrailingZ (w : List Nat) : List Nat :=
  (w.reverse.dropWhile (fun c => c == zCode)).reverse

/-- Line 275: `search_word[-1] = chr(ord(search_word[-1]) + 1)` — increment the
last element of a list (identity on the empty list, which the source never reaches
because of the guard at line 274). -/
def incLast : List Nat → List Nat
  | [] => []
  | [c] => [c + 1]
  | c :: d :: ds => c :: incLast (d :: ds)

/-- Lines 269-275: the enumerator transition applied to `search_word` once the
saturation flag `businesses_count_200` is known.  `saturated = true` appends the
letter a (line 270); otherwise trailing z letters are popped and the new last
letter is incremented (lines 272-275).  `none` models the state in which
`search_word` becomes empty, which the loop guard at line 190 turns into
termination. -/
def advance (w : List Nat) (saturated : Bool) : Option (List Nat) :=
  if saturated then some (w ++ [aCode])
  else
    let w' := popTrailingZ w
    if w' = [] then none else some (incLast w')

/-- Iterated enumerator: the state of `search_word` before iteration `n` of the
loop at line 190, when the saturation signal observed at iteration `n` is
`sat n` and no exception interferes.  The initial state is `['a']` (line 189). -/
def traceAdv (sat : Nat → Bool) : Nat → Option (List Nat)
  | 0 => some [aCode]
  | n + 1 => (traceAdv sat n).bind (fun w => advance w (sat n))

/-- What the environment does to one iteration of the search loop
(lines 194-287).  The whole loop body sits in the `try` at line 194 whose
handler at line 283 swallows every exception, so an iteration either runs to
completion or is cut short at some point of the body:

* `ok sat` — no exception; the saturation flag computed at lines 260-267 is
  `sat`, the enumerator advances (lines 269-275) and the result callback at
  line 278 completes.
* `excEarly` — an exception in the part of the body before the page-size block
  at line 229 (captcha check, fill, click, wait): the guarded page-size block
  is not reached, the enumerator state is untouched and nothing is delivered.
* `excMid` — an exception after the page-size block but before the enumerator
  update (for example while capturing the page content at line 245): the
  page-size guard was evaluated, but the state is untouched and nothing is
  delivered.
* `excDeliver sat` — an exception inside the result callback at line 278: the
  enumerator has already advanced with `sat`, but the delivery did not
  complete. -/
inductive IterEvent where
  | ok (sat : Bool)
  | excEarly
  | excMid
  | excDeliver (sat : Bool)
deriving DecidableEq

/-- Observable outcome of one iteration of the search loop: the state of
`search_word` after the iteration, whether the result callback completed, and
whether the page-size block guarded by `letter == 'a'` (line 229) was entered. -/
structure IterResult where
  state : List Nat
  delivered : Bool
  pageSizeAttempted : Bool
deriving DecidableEq

/-- Line 229: the condition `letter == 'a'` guarding the page-size block
(`letter` is `"".join(search_word)`). -/
def pageSizeGuard (w : List Nat) : Bool := decide (w = [aCode])

/-- One iteration of the search loop (lines 190-287) on state `w` under
environment event `ev`.  The handler at lines 283-287 only prints and sleeps,
so on an exception the state is exactly what it was at the throw point. -/
def loopIter (w : List Nat) (ev : IterEvent) : IterResult :=
  match ev with
  | IterEvent.excEarly => ⟨w, false, false⟩
  | IterEvent.excMid => ⟨w, false, pageSizeGuard w⟩
  | IterEvent.excDeliver sat => ⟨(advance w sat).getD [], false, pageSizeGuard w⟩
  | IterEvent.ok sat => ⟨(advance w sat).getD [], true, pageSizeGuard w⟩

/-- Fuel-bounded run of the `while len(search_word) > 0` loop at line 190,
starting from state `w`, with the environment supplying event `events n` for
the n-th executed iteration.  Each entry records the term submitted at that
iteration together with the iteration's outcome. -/
def loopRun : List Nat → (Nat → IterEvent) → Nat → List (List Nat × IterResult)
  | _, _, 0 => []
  | w, events, fuel + 1 =>
    if w = [] then []
    else (w, loopIter w (events 0)) ::
      loopRun (loopIter w (events 0)).state (fun n => events (n + 1)) fuel

/-- An exception-free environment whose n-th saturation signal is `sat n`. -/
def okEvents (sat : Nat → Bool) : Nat → IterEvent := fun n => IterEvent.ok (sat n)

/-- The terms whose `SearchResult` was delivered through the callback during a
loop run. -/
def deliveredTerms (w : List Nat) (events : Nat → IterEvent) (fuel : Nat) :
    List (List Nat) :=
  (loopRun w events fuel).filterMap (fun e => if e.2.delivered then some e.1 else none)

/-- Lines 156-165: `for attempt in range(5)` — the business-type lookup
succeeds iff on one of the five attempts the dropdown `#EntitySubTypeCode`
exists and the requested option text appears in its option list. -/
def businessTypeFound (dropdownPresent optionListed : Nat → Bool) : Bool :=
  (List.range 5).any (fun attempt => dropdownPresent attempt && optionListed attempt)

/-- How `process_business_type_session` ends once the page has been created at
line 101: an exception escaping the setup steps (for example the `goto` at
line 120, which sits outside every inner handler), the fatal `return` at
line 152 when the register selector is absent, the fatal `return`s at
lines 169 and 172 when the business type is never found, or normal completion
of the search loop. -/
inductive SessionExit where
  | raisedSetup
  | fatalRegister
  | fatalBusinessType
  | completed
deriving DecidableEq

/-- Observable outcome of a whole session: how it ended, which terms had their
results delivered, and whether the page resource is still open at the end. -/
structure SessionRun where
  exitKind : SessionExit
  delivered : List (List Nat)
  pageOpen : Bool
deriving DecidableEq

/-- The body of `process_business_type_session` after page creation (line 101),
with the `finally` at lines 289-291 applied: every branch — the setup
exception, the fatal `return` at line 152, the fatal `return`s at lines
169/172, and normal completion of the search loop at lines 189-287 — passes
through `await page.close()`, so every branch ends with `pageOpen = false`.
The search loop starts from `search_word = ['a']` (line 189). -/
def runSession (setupRaises registerOk : Bool)
    (dropdownPresent optionListed : Nat → Bool)
    (events : Nat → IterEvent) (fuel : Nat) : SessionRun :=
  if setupRaises then ⟨SessionExit.raisedSetup, [], false⟩
  else if !registerOk then ⟨SessionExit.fatalRegister, [], false⟩
  else if !(businessTypeFound dropdownPresent optionListed) then
    ⟨SessionExit.fatalBusinessType, [], false⟩
  else ⟨SessionExit.completed, deliveredTerms [aCode] events fuel, false⟩

/-- Lines 260-267: `businesses_count_200 = False`, then inside a `try`: find
the `appPagerBanner` div and test `"200" in result_blocks.text.split(" ")`;
any exception (in particular the attribute error raised when the banner div is
absent and `find` returned `None`) is caught and leaves the flag `False`.
`bannerWords` is the banner text split on spaces. -/
def saturationSignal (bannerPresent readRaises : Bool)
    (bannerWords : List String) : Bool :=
  if bannerPresent && !readRaises then decide ("200" ∈ bannerWords) else false

/-- Classification labels written by `save_result` (lines 319-321). -/
inductive Status where
  | found
  | noData
  | error
deriving DecidableEq

/-- Modelled from the spec: the `SearchResult` record is defined in
`concurrent_scraper.py`, which is not part of the sources; the spec describes
it as an immutable record with the raw page markup, a success flag, an
optional error message and the elapsed time, and the source constructs it with
fields `business_name`, `html_content`, `success`, `search_time`
(lines 252-257). -/
structure SearchResult where
  business_name : String
  html_content : String
  success : Bool
  error_message : Option String
  search_time : Nat
deriving DecidableEq

/-- Whether `needle` starts the list `haystack` (character by character). -/
def listStartsWith : List Char → List Char → Bool
  | [], _ => true
  | _ :: _, [] => false
  | a :: as, b :: bs => a == b && listStartsWith as bs

/-- Python's substring test `needle in haystack` on character lists. -/
def containsSub (needle : List Char) : List Char → Bool
  | [] => listStartsWith needle []
  | h :: t => listStartsWith needle (h :: t) || containsSub needle t

/-- The no-results marker test of line 319: `"No results found" in res.html_content`. -/
def noResultsIn (s : String) : Bool :=
  containsSub ("No results found").toList s.toList

/-- Lines 319-320 of `save_result`:
`status = "Found" if res.success and "No results found" not in res.html_content else "No Data"`
followed by `if not res.success: status = "Error"`. -/
def classifyStatus (res : SearchResult) : Status :=
  let status :=
    if res.success && !(noResultsIn res.html_content) then Status.found
    else Status.noData
  if !res.success then Status.error else status

end Zones

namespace Zones

/-- The last element of a nonempty `incLast` result. -/
theorem incLast_ne_nil {w : List Nat} (h : w ≠ []) : incLast w ≠ [] := by
  match w with
  | [] => exact absurd rfl h
  | [c] => simp [incLast]
  | c :: d :: ds => simp [incLast]

/-- Unfolding of the saturated branch of `advance`. -/
theorem advance_true_eq (w : List Nat) : advance w true = some (w ++ [aCode]) := rfl

/-- Unfolding of the non-saturated branch of `advance`. -/
theorem advance_false_eq (w : List Nat) :
    advance w false =
      if popTrailingZ w = [] then none else some (incLast (popTrailingZ w)) := rfl

/-- A successful `advance` never returns the empty list: the result of the
saturated branch ends in the letter a, and the non-saturated branch only
returns `some` after the popped word was checked nonempty. -/
theorem advance_some_ne_nil {w w' : List Nat} {s : Bool}
    (h : advance w s = some w') : w' ≠ [] := by
  cases s with
  | true =>
    rw [advance_true_eq, Option.some.injEq] at h
    subst h
    simp
  | false =>
    rw [advance_false_eq] at h
    by_cases hp : popTrailingZ w = []
    · simp [hp] at h
    · rw [if_neg hp, Option.some.injEq] at h
      subst h
      exact incLast_ne_nil hp

/-- Elements of `popTrailingZ w` are elements of `w`. -/
theorem popTrailingZ_subset {w : List Nat} {c : Nat}
    (h : c ∈ popTrailingZ w) : c ∈ w := by
  unfold popTrailingZ at h
  rw [List.mem_reverse] at h
  have := (List.dropWhile_sublist (l := w.reverse) (p := fun c => c == zCode)).subset h
  rwa [List.mem_reverse] at this

/-- Elements of `incLast l` are either elements of `l` or the successor of one. -/
theorem mem_incLast {l : List Nat} {d : Nat}
    (h : d ∈ incLast l) : d ∈ l ∨ ∃ c ∈ l, d = c + 1 := by
  induction l with
  | nil => simp [incLast] at h
  | cons c cs ih =>
    cases cs with
    | nil =>
      simp only [incLast, List.mem_singleton] at h
      exact Or.inr ⟨c, by simp, h⟩
    | cons e es =>
      simp only [incLast, List.mem_cons] at h
      rcases h with h | h
      · exact Or.inl (by simp [h])
      · rcases ih h with h' | ⟨x, hx, hd⟩
        · exact Or.inl (List.mem_cons_of_mem _ h')
        · exact Or.inr ⟨x, List.mem_cons_of_mem _ hx, hd⟩

/-- Every letter of every state reachable by `advance` stays at or above the
code of the letter a: appending the letter a keeps the bound, and incrementing
only raises codes. -/
theorem advance_lettersLo {w w' : List Nat} {s : Bool}
    (hw : ∀ c ∈ w, aCode ≤ c) (h : advance w s = some w') :
    ∀ c ∈ w', aCode ≤ c := by
  cases s with
  | true =>
    rw [advance_true_eq, Option.some.injEq] at h
    subst h
    intro c hc
    rcases List.mem_append.mp hc with hc | hc
    · exact hw c hc
    · simp at hc; simp [hc, aCode]
  | false =>
    rw [advance_false_eq] at h
    by_cases hp : popTrailingZ w = []
    · simp [hp] at h
    · rw [if_neg hp, Option.some.injEq] at h
      subst h
      intro c hc
      rcases mem_incLast hc with hc | ⟨x, hx, hd⟩
      · exact hw c (popTrailingZ_subset hc)
      · have := hw x (popTrailingZ_subset hx)
        omega

/-- A nonempty state whose letters are all at or above the code of the letter a
never advances to the single-letter state `['a']` again: the saturated branch
lengthens the word, and the increment branch produces a last letter strictly
above the code of the letter a. -/
theorem advance_ne_some_a {w : List Nat} {s : Bool}
    (hw : ∀ c ∈ w, aCode ≤ c) (hne : w ≠ []) :
    advance w s ≠ some [aCode] := by
  intro h
  cases s with
  | true =>
    rw [advance_true_eq, Option.some.injEq] at h
    have hlen := congrArg List.length h
    simp at hlen
    exact hne hlen
  | false =>
    rw [advance_false_eq] at h
    by_cases hp : popTrailingZ w = []
    · simp [hp] at h
    · rw [if_neg hp, Option.some.injEq] at h
      match hw' : popTrailingZ w with
      | [] => exact hp hw'
      | [c] =>
        rw [hw'] at h
        simp only [incLast, List.cons.injEq] at h
        have hc : c ∈ popTrailingZ w := by rw [hw']; simp
        have hle := hw c (popTrailingZ_subset hc)
        have hc1 : c + 1 = aCode := h.1
        unfold aCode at hc1 hle
        omega
      | c :: d :: ds =>
        rw [hw'] at h
        simp only [incLast, List.cons.injEq] at h
        have := incLast_ne_nil (w := d :: ds) (by simp)
        exact this h.2

/-- Every word splits as its z-popped core followed by the trailing z letters. -/
theorem popTrailingZ_decomp (w : List Nat) :
    ∃ k, w = popTrailingZ w ++ List.replicate k zCode := by
  refine ⟨(w.reverse.takeWhile (fun c => c == zCode)).length, ?_⟩
  have hsplit :
      w.reverse.takeWhile (fun c => c == zCode) ++
        w.reverse.dropWhile (fun c => c == zCode) = w.reverse :=
    List.takeWhile_append_dropWhile (fun c => c == zCode) w.reverse
  have htake :
      (w.reverse.takeWhile (fun c => c == zCode)).reverse =
        List.replicate (w.reverse.takeWhile (fun c => c == zCode)).length zCode := by
    rw [List.eq_replicate_iff]
    refine ⟨by simp, ?_⟩
    intro b hb
    rw [List.mem_reverse] at hb
    have := List.mem_takeWhile_imp hb
    simpa using this
  calc w = w.reverse.reverse := (List.reverse_reverse w).symm
    _ = (w.reverse.takeWhile (fun c => c == zCode) ++
          w.reverse.dropWhile (fun c => c == zCode)).reverse := by rw [hsplit]
    _ = popTrailingZ w ++ (w.reverse.takeWhile (fun c => c == zCode)).reverse := by
          rw [List.reverse_append]; rfl
    _ = popTrailingZ w ++ List.replicate _ zCode := by rw [htake]

/-- Incrementing the last letter beats the original word followed by any run of
trailing z letters, in the lexicographic order on letter codes. -/
theorem lex_incLast (p : List Nat) (hp : p ≠ []) (k : Nat) :
    List.Lex (· < ·) (p ++ List.replicate k zCode) (incLast p) := by
  induction p with
  | nil => exact absurd rfl hp
  | cons c cs ih =>
    cases cs with
    | nil => exact List.Lex.rel (Nat.lt_succ_self c)
    | cons d ds =>
      exact List.Lex.cons (ih (by simp))

/-- The non-saturated transition dies exactly on the all-z words. -/
theorem advance_false_none_iff (w : List Nat) :
    advance w false = none ↔ ∀ c ∈ w, c = zCode := by
  rw [advance_false_eq]
  constructor
  · intro h
    by_cases hp : popTrailingZ w = []
    · intro c hc
      unfold popTrailingZ at hp
      have hrev : w.reverse.dropWhile (fun c => c == zCode) = [] := by
        by_contra hne
        exact hne (by simpa using congrArg List.reverse hp)
      have := (List.dropWhile_eq_nil_iff).mp hrev c (List.mem_reverse.mpr hc)
      simpa using this
    · rw [if_neg hp] at h
      exact absurd h (by simp)
  · intro h
    have hp : popTrailingZ w = [] := by
      unfold popTrailingZ
      have : w.reverse.dropWhile (fun c => c == zCode) = [] := by
        rw [List.dropWhile_eq_nil_iff]
        intro x hx
        have := h x (List.mem_reverse.mp hx)
        simp [this]
      rw [this]
      rfl
    rw [if_pos hp]

/-- C1: for every non-empty term, advancing with `saturated = false` pops the
trailing z letters and increments the new last letter, yielding a strictly
lexicographically greater term; it returns none exactly when the term was all
z letters; and the term "az" advances to "b". -/
theorem C1_advance_false (w : List Nat) (hne : w ≠ []) :
    (advance w false = none ↔ ∀ c ∈ w, c = zCode) ∧
    (∀ w', advance w false = some w' → List.Lex (· < ·) w w') ∧
    advance [aCode, zCode] false = some [aCode + 1] := by
  refine ⟨advance_false_none_iff w, ?_, by decide⟩
  intro w' h
  rw [advance_false_eq] at h
  by_cases hp : popTrailingZ w = []
  · simp [hp] at h
  · rw [if_neg hp, Option.some.injEq] at h
    subst h
    obtain ⟨k, hk⟩ := popTrailingZ_decomp w
    conv_lhs => rw [hk]
    exact lex_incLast _ hp k

/-- C1 witness: the term "az" advances to "b" and the step is a strict
lexicographic increase. -/
theorem C1_advance_false_witness :
    advance [aCode, zCode] false = some [aCode + 1] ∧
    List.Lex (· < ·) [aCode, zCode] [aCode + 1] :=
  ⟨(C1_advance_false [aCode, zCode] (by decide)).2.2,
   (C1_advance_false [aCode, zCode] (by decide)).2.1 [aCode + 1]
     (C1_advance_false [aCode, zCode] (by decide)).2.2⟩

/-- C2: for every term, advancing with `saturated = true` appends the letter a,
giving a term one longer, ending in the letter a, of which the previous term is
a strict prefix; and the term "a" advances to "aa". -/
theorem C2_advance_true (w : List Nat) :
    advance w true = some (w ++ [aCode]) ∧
    (w ++ [aCode]).length = w.length + 1 ∧
    (w ++ [aCode]).getLast? = some aCode ∧
    w <+: w ++ [aCode] ∧
    w ≠ w ++ [aCode] ∧
    advance [aCode] true = some [aCode, aCode] := by
  refine ⟨advance_true_eq w, by simp, by simp, ⟨[aCode], rfl⟩, ?_, by decide⟩
  intro h
  have := congrArg List.length h
  simp at this

/-- C4: feeding saturation false at every step, the enumeration from the term
"a" emits the 26 single-letter terms a through z in order, and the 26th
advance returns none; the session loop accordingly performs exactly 26
iterations. -/
theorem C4_sweep :
    (∀ n, n < 26 → traceAdv (fun _ => false) n = some [aCode + n]) ∧
    traceAdv (fun _ => false) 26 = none ∧
    (loopRun [aCode] (okEvents (fun _ => false)) 30).length = 26 := by
  refine ⟨by decide, by decide, by decide⟩

/-- C4 witness: the last emitted term is "z", after which the advance is none. -/
theorem C4_sweep_witness :
    traceAdv (fun _ => false) 25 = some [aCode + 25] ∧
    traceAdv (fun _ => false) 26 = none :=
  ⟨C4_sweep.1 25 (by decide), C4_sweep.2.1⟩

/-- C5: every state the enumerator can reach (hence every term submitted to the
search field) is non-empty; the saturated descend never yields the terminal
state, which is reached only by the trailing-z rollover of a non-saturated
advance, on an all-z term. -/
theorem C5_nonempty :
    (∀ sat n w, traceAdv sat n = some w → w ≠ []) ∧
    (∀ w, advance w true ≠ none) ∧
    (∀ w, advance w false = none → ∀ c ∈ w, c = zCode) := by
  refine ⟨?_, ?_, fun w h => (advance_false_none_iff w).mp h⟩
  · intro sat n
    induction n with
    | zero =>
      intro w h
      simp only [traceAdv, Option.some.injEq] at h
      subst h
      simp
    | succ n ih =>
      intro w h
      rw [traceAdv, Option.bind_eq_some] at h
      obtain ⟨w0, _, h1⟩ := h
      exact advance_some_ne_nil h1
  · intro w
    rw [advance_true_eq]
    simp

/-- C5 witness: the initial state is non-empty, and a concrete all-z term is
the only way to reach none. -/
theorem C5_nonempty_witness :
    ([aCode] : List Nat) ≠ [] ∧ (∀ c ∈ [zCode, zCode], c = zCode) :=
  ⟨C5_nonempty.1 (fun _ => false) 0 [aCode] rfl,
   C5_nonempty.2.2 [zCode, zCode] (by decide)⟩

/-- The loop at line 190 does nothing from the empty state. -/
theorem loopRun_nil (events : Nat → IterEvent) (fuel : Nat) :
    loopRun [] events fuel = [] := by
  cases fuel <;> simp [loopRun]

/-- In an exception-free run starting anywhere other than the single-letter
state "a" (with all letter codes at or above the code of the letter a), the
page-size guard of line 229 never fires: no reachable state is "a" again. -/
theorem countP_pageSize_zero (fuel : Nat) :
    ∀ (sat : Nat → Bool) (w : List Nat), (∀ c ∈ w, aCode ≤ c) → w ≠ [aCode] →
      (loopRun w (okEvents sat) fuel).countP (fun e => e.2.pageSizeAttempted) = 0 := by
  induction fuel with
  | zero => intro sat w _ _; simp [loopRun]
  | succ fuel ih =>
    intro sat w hlo hna
    by_cases hw : w = []
    · simp [loopRun, hw]
    · rw [loopRun, if_neg hw, List.countP_cons]
      have hguard : (loopIter w (okEvents sat 0)).pageSizeAttempted = false := by
        simp only [okEvents, loopIter, pageSizeGuard]
        exact decide_eq_false hna
      rw [hguard]
      simp only [Bool.false_eq_true, if_false, Nat.add_zero]
      have hstate : (loopIter w (okEvents sat 0)).state = (advance w (sat 0)).getD [] := rfl
      rw [hstate]
      match hadv : advance w (sat 0) with
      | none => simp [loopRun_nil]
      | some w2 =>
        have hlo2 := advance_lettersLo hlo hadv
        have hna2 : w2 ≠ [aCode] := by
          intro hcontra
          exact advance_ne_some_a hlo hw (hcontra ▸ hadv)
        exact ih (fun n => sat (n + 1)) w2 hlo2 hna2

/-- C3 counterexample: a session run in which an exception interrupts the very
first iteration after the page-size block (for example while capturing the
page content at line 245).  The handler leaves `search_word = ['a']`, the next
iteration re-submits the term "a", and the page-size block guarded by
`letter == 'a'` at line 229 is entered a second time: two attempts in one run,
refuting "exactly once in every session run". -/
theorem C3_counterexample :
    (loopRun [aCode]
        (fun n => if n = 0 then IterEvent.excMid else IterEvent.ok false) 2).countP
      (fun e => e.2.pageSizeAttempted) = 2 := by decide

/-- C3 amended: the page-size block is entered only on iterations whose term is
"a", and in an exception-free session run it is entered exactly once, at the
very first iteration — the enumerator never re-emits the term "a" after a
successful advance.  An exception during the first term's iteration can,
however, cause the attempt to be repeated when the term "a" is retried. -/
theorem C3_pageSize_once (sat : Nat → Bool) (fuel : Nat) (hf : 0 < fuel) :
    (loopRun [aCode] (okEvents sat) fuel).countP (fun e => e.2.pageSizeAttempted) = 1 ∧
    (∀ w ev, (loopIter w ev).pageSizeAttempted = true → w = [aCode]) := by
  constructor
  · obtain ⟨m, rfl⟩ : ∃ m, fuel = m + 1 := ⟨fuel - 1, by omega⟩
    rw [loopRun, if_neg (by simp), List.countP_cons]
    have hguard : (loopIter [aCode] (okEvents sat 0)).pageSizeAttempted = true := by
      simp [okEvents, loopIter, pageSizeGuard]
    rw [hguard]
    simp only [if_pos]
    have hstate :
        (loopIter [aCode] (okEvents sat 0)).state = (advance [aCode] (sat 0)).getD [] := rfl
    rw [hstate]
    have hz :
        (loopRun ((advance [aCode] (sat 0)).getD []) (fun n => okEvents sat (n + 1)) m).countP
          (fun e => e.2.pageSizeAttempted) = 0 := by
      match hadv : advance [aCode] (sat 0) with
      | none => simp [loopRun_nil]
      | some w2 =>
        have hlo2 := advance_lettersLo (w := [aCode]) (by simp [aCode]) hadv
        have hna2 : w2 ≠ [aCode] := by
          intro hcontra
          exact advance_ne_some_a (w := [aCode]) (by simp [aCode]) (by simp) (hcontra ▸ hadv)
        exact countP_pageSize_zero m (fun n => sat (n + 1)) w2 hlo2 hna2
    omega
  · intro w ev h
    cases ev with
    | excEarly => simp [loopIter] at h
    | excMid =>
      simp only [loopIter, pageSizeGuard] at h
      exact of_decide_eq_true h
    | excDeliver sat' =>
      simp only [loopIter, pageSizeGuard] at h
      exact of_decide_eq_true h
    | ok sat' =>
      simp only [loopIter, pageSizeGuard] at h
      exact of_decide_eq_true h

/-- C3 witness: a concrete exception-free run of three iterations enters the
page-size block exactly once. -/
theorem C3_pageSize_once_witness :
    (loopRun [aCode] (okEvents (fun _ => false)) 3).countP
        (fun e => e.2.pageSizeAttempted) = 1 ∧
    ([aCode] : List Nat) = [aCode] :=
  ⟨(C3_pageSize_once (fun _ => false) 3 (by decide)).1,
   (C3_pageSize_once (fun _ => false) 3 (by decide)).2 [aCode] (IterEvent.ok false)
     (by decide)⟩

/-- C6: an exception while processing one term is absorbed by the handler at
lines 283-287: nothing is delivered on any exception path, an exception raised
before the enumerator update leaves `search_word` untouched, and the loop then
simply runs its next iteration on the same unchanged state — the session is
never aborted, only that attempt's data is lost. -/
theorem C6_exception_skip (w : List Nat) (hne : w ≠ []) :
    (loopIter w IterEvent.excEarly).state = w ∧
    (loopIter w IterEvent.excEarly).delivered = false ∧
    (loopIter w IterEvent.excMid).state = w ∧
    (loopIter w IterEvent.excMid).delivered = false ∧
    (∀ sat, (loopIter w (IterEvent.excDeliver sat)).delivered = false) ∧
    (∀ events fuel, events 0 = IterEvent.excEarly →
      loopRun w events (fuel + 1) =
        (w, loopIter w IterEvent.excEarly) ::
          loopRun w (fun n => events (n + 1)) fuel) := by
  refine ⟨rfl, rfl, rfl, rfl, fun _ => rfl, ?_⟩
  intro events fuel h0
  rw [loopRun, if_neg hne, h0]
  rfl

/-- C6 witness: a concrete exception on the state "a" delivers nothing and the
loop continues on the very same state. -/
theorem C6_exception_skip_witness :
    (loopIter [aCode] IterEvent.excEarly).state = [aCode] ∧
    loopRun [aCode] (fun _ => IterEvent.excEarly) 1 =
      ([aCode], loopIter [aCode] IterEvent.excEarly) ::
        loopRun [aCode] (fun n => (fun _ => IterEvent.excEarly) (n + 1)) 0 :=
  ⟨(C6_exception_skip [aCode] (by decide)).1,
   (C6_exception_skip [aCode] (by decide)).2.2.2.2.2 (fun _ => IterEvent.excEarly) 0 rfl⟩

/-- C7: `save_result` classifies a successful result containing the no-results
marker as No-Data, any unsuccessful result as Error regardless of content, and
a successful result without the marker as Found. -/
theorem C7_classification (res : SearchResult) :
    (res.success = true → noResultsIn res.html_content = true →
      classifyStatus res = Status.noData) ∧
    (res.success = false → classifyStatus res = Status.error) ∧
    (res.success = true → noResultsIn res.html_content = false →
      classifyStatus res = Status.found) := by
  refine ⟨?_, ?_, ?_⟩
  · intro hs hm
    simp [classifyStatus, hs, hm]
  · intro hs
    simp [classifyStatus, hs]
  · intro hs hm
    simp [classifyStatus, hs, hm]

/-- C7 witness: the three classifications at concrete results. -/
theorem C7_classification_witness :
    classifyStatus ⟨"a (T)", "No results found", true, none, 0⟩ = Status.noData ∧
    classifyStatus ⟨"a (T)", "rows", false, some "err", 0⟩ = Status.error ∧
    classifyStatus ⟨"a (T)", "rows", true, none, 0⟩ = Status.found :=
  ⟨(C7_classification _).1 rfl (by decide),
   (C7_classification _).2.1 rfl,
   (C7_classification _).2.2 rfl (by decide)⟩

/-- C8: when the business-type option is listed on none of the five bounded
lookup attempts, the session exits with the fatal business-type abort before
the search loop, and the result callback is never invoked — no matter what the
dropdown does from attempt five on. -/
theorem C8_abort_no_results (dropdownPresent optionListed : Nat → Bool)
    (events : Nat → IterEvent) (fuel : Nat)
    (h : ∀ n, n < 5 → (dropdownPresent n && optionListed n) = false) :
    runSession false true dropdownPresent optionListed events fuel =
      ⟨SessionExit.fatalBusinessType, [], false⟩ := by
  have hbf : businessTypeFound dropdownPresent optionListed = false := by
    rw [businessTypeFound, List.any_eq_false]
    intro x hx
    have := h x (List.mem_range.mp hx)
    simp [this]
  simp [runSession, hbf]

/-- C8 witness: a session whose dropdown never materialises delivers nothing. -/
theorem C8_abort_no_results_witness :
    runSession false true (fun _ => false) (fun _ => true)
        (okEvents (fun _ => false)) 2 =
      ⟨SessionExit.fatalBusinessType, [], false⟩ :=
  C8_abort_no_results (fun _ => false) (fun _ => true) (okEvents (fun _ => false)) 2
    (fun _ _ => rfl)

/-- C9: whichever way the session body ends — setup exception, fatal register
abort, fatal business-type abort, or normal completion of the search loop —
the `finally` at lines 289-291 has closed the page by the time the session
ends. -/
theorem C9_page_closed (setupRaises registerOk : Bool)
    (dropdownPresent optionListed : Nat → Bool)
    (events : Nat → IterEvent) (fuel : Nat) :
    (runSession setupRaises registerOk dropdownPresent optionListed
        events fuel).pageOpen = false := by
  rw [runSession]
  split
  · rfl
  · split
    · rfl
    · split
      · rfl
      · rfl

/-- C10: when the result-count banner is absent from the captured page or
reading it raises, the saturation flag keeps its initial `False`, so the
enumerator takes the increment branch, exactly as for an unsaturated page. -/
theorem C10_saturation_default (bannerPresent readRaises : Bool)
    (bannerWords : List String) (w : List Nat)
    (h : bannerPresent = false ∨ readRaises = true) :
    saturationSignal bannerPresent readRaises bannerWords = false ∧
    advance w (saturationSignal bannerPresent readRaises bannerWords) =
      advance w false := by
  have hs : saturationSignal bannerPresent readRaises bannerWords = false := by
    rcases h with h | h <;> simp [saturationSignal, h]
  exact ⟨hs, by rw [hs]⟩

/-- C10 witness: a missing banner yields an unsaturated advance even when the
word 200 would have been in the banner text. -/
theorem C10_saturation_default_witness :
    saturationSignal false false ["200"] = false ∧
    advance [aCode] (saturationSignal false false ["200"]) = advance [aCode] false :=
  C10_saturation_default false false ["200"] [aCode] (Or.inl rfl)

end Zones
